import Mathlib

/-!
# Verification of the glance face-authentication system

A shallow embedding, in Lean 4, of the core algorithms of the `glance`
repository (a Linux face-authentication tool with a GTK enroller and a PAM
authenticator), together with proofs about the embedded definitions.

Conventions of the embedding:
* `f64` values that the code only compares, copies and subtracts are modelled
  as `ℚ`; the distance function of the external `dlib_face_recognition` crate
  (`FaceEncoding::distance`, Euclidean) is an abstract parameter `dist`.
* Durations (`std::time::Duration`) are modelled as natural numbers of
  milliseconds; `Instant::elapsed` readings are inputs of the environment.
* Filesystem and V4L2 side effects are modelled as explicit traces of
  operations, or as environment inputs giving each call's outcome.
-/

namespace Glance

/-! ## Device classification (pam-glance/src/camera.rs)

`CameraType` and `detect_camera_type` embed the enum and the name-based
classifier of `pam-glance/src/camera.rs`. Rust's `str::to_lowercase`,
`str::contains` and `str::ends_with` are modelled by `lowerStr`,
`strContains` and `strEnds` over the character list of the string. -/

inductive CameraType where
  | infrared
  | rgb
  | unknown
deriving DecidableEq

def lowerStr (s : String) : String := ⟨s.data.map Char.toLower⟩

/-- `charsStart needle hay`: does `hay` start with `needle`? -/
def charsStart : List Char → List Char → Bool
  | [], _ => true
  | _ :: _, [] => false
  | n :: ns, h :: hs => n = h && charsStart ns hs

/-- `charsContain hay needle`: does `needle` occur contiguously in `hay`? -/
def charsContain : List Char → List Char → Bool
  | [], needle => needle.isEmpty
  | h :: t, needle => charsStart needle (h :: t) || charsContain t needle

/-- Rust `str::contains` (substring). -/
def strContains (s sub : String) : Bool := charsContain s.data sub.data

/-- Rust `str::ends_with`. -/
def strEnds (s tail : String) : Bool := charsStart tail.data.reverse s.data.reverse

/-- The for-loop over a keyword list with early return in
`detect_camera_type`. -/
def anyContains (s : String) (keys : List String) : Bool :=
  keys.any (fun k => strContains s k)

/-- `detect_camera_type` of `pam-glance/src/camera.rs` (lines 204-234),
verbatim: IR suffix check first, then the IR keyword loop (note the bare
substring `"ir"`), then the RGB suffix check, then the RGB keyword loop,
then the `integrated` check (which also yields Unknown). -/
def detect_camera_type (name : String) : CameraType :=
  if strEnds (lowerStr name) " i" || strEnds (lowerStr name) ": i" then .infrared
  else if anyContains (lowerStr name) ["ir", "infrared", "depth", "tof"] then .infrared
  else if strEnds (lowerStr name) " c" || strEnds (lowerStr name) ": c" then .rgb
  else if anyContains (lowerStr name) ["rgb", "color", "webcam", "hd camera", "usb camera"] then .rgb
  else if strContains (lowerStr name) "integrated" then .unknown
  else .unknown

/-- The classifier exactly as the specification's words describe it (IR
keywords `infrared`, `ir camera`, `ir sensor`, `infra red`, `depth`, `tof`):
stated only to be compared with `detect_camera_type`. -/
def claimCameraType (name : String) : CameraType :=
  if anyContains (lowerStr name) ["infrared", "ir camera", "ir sensor", "infra red", "depth", "tof"]
      || strEnds (lowerStr name) " i" || strEnds (lowerStr name) ": i" then .infrared
  else if anyContains (lowerStr name) ["rgb", "color", "webcam", "hd camera", "usb camera"]
      || strEnds (lowerStr name) " c" || strEnds (lowerStr name) ": c" then .rgb
  else .unknown

/-- The classification the code actually computes, phrased as the amended
specification sentence: IR iff the lowered name ends with `" i"`/`": i"` or
contains one of `ir`, `infrared`, `depth`, `tof`; else RGB iff it ends with
`" c"`/`": c"` or contains one of `rgb`, `color`, `webcam`, `hd camera`,
`usb camera`; else Unknown. -/
def amendedCameraType (name : String) : CameraType :=
  if strEnds (lowerStr name) " i" || strEnds (lowerStr name) ": i"
      || anyContains (lowerStr name) ["ir", "infrared", "depth", "tof"] then .infrared
  else if strEnds (lowerStr name) " c" || strEnds (lowerStr name) ": c"
      || anyContains (lowerStr name) ["rgb", "color", "webcam", "hd camera", "usb camera"] then .rgb
  else .unknown

/-- C8 counterexample: the name `"Infra Red"` contains the spec keyword
`infra red` but neither the bare substring `ir` nor any other code keyword,
so the code classifies it Unknown while the claim classifies it IR. -/
theorem detect_camera_type_claim_cex :
    detect_camera_type "Infra Red" = CameraType.unknown ∧
    claimCameraType "Infra Red" = CameraType.infrared := by
  constructor <;> rfl

/-- C8 (amended): for every device name, `detect_camera_type` computes
exactly the amended classification (case-insensitive; IR on the `" i"`/`": i"`
suffixes or the substrings `ir`, `infrared`, `depth`, `tof`; RGB, when not IR,
on the `" c"`/`": c"` suffixes or the substrings `rgb`, `color`, `webcam`,
`hd camera`, `usb camera`; Unknown otherwise). -/
theorem detect_camera_type_amended (name : String) :
    detect_camera_type name = amendedCameraType name := by
  unfold detect_camera_type amendedCameraType
  cases h1 : strEnds (lowerStr name) " i" <;>
    cases h2 : strEnds (lowerStr name) ": i" <;>
      cases h3 : anyContains (lowerStr name) ["ir", "infrared", "depth", "tof"] <;>
        cases h4 : strEnds (lowerStr name) " c" <;>
          cases h5 : strEnds (lowerStr name) ": c" <;>
            cases h6 : anyContains (lowerStr name) ["rgb", "color", "webcam", "hd camera", "usb camera"] <;>
              cases h7 : strContains (lowerStr name) "integrated" <;>
                simp [h1, h2, h3, h4, h5, h6, h7]

/-! ## Camera enumeration ordering (pam-glance/src/camera.rs, detect_cameras)

`detect_cameras` ends by sorting the collected `CameraInfo` records with
`sort_by` and the comparator of lines 187-194. Rust's `sort_by` is a stable
sort by a comparator; it is modelled by a stable insertion sort `camSort`
over the same comparator `cmpCam`. -/

structure CameraInfo where
  device_id : Int
  device_path : String
  name : String
  camera_type : CameraType
deriving DecidableEq

/-- `i32::cmp`, the `Ord` used by `a.device_id.cmp(&b.device_id)`. -/
def cmpInt (a b : Int) : Ordering :=
  if a < b then .lt else if b < a then .gt else .eq

/-- The comparator of `detect_cameras` (camera.rs lines 187-194): Infrared
sorts before everything else; any other pair compares by device id. -/
def cmpCam (a b : CameraInfo) : Ordering :=
  match a.camera_type, b.camera_type with
  | .infrared, .infrared => cmpInt a.device_id b.device_id
  | .infrared, _ => .lt
  | _, .infrared => .gt
  | _, _ => cmpInt a.device_id b.device_id

/-- Stable insertion placing `x` before the first element that compares
greater than it: the unique output of any stable comparator sort such as
Rust's `sort_by`. -/
def insertCam (x : CameraInfo) : List CameraInfo → List CameraInfo
  | [] => [x]
  | y :: ys => if cmpCam y x = .gt then x :: y :: ys else y :: insertCam x ys

/-- Model of `cameras.sort_by(comparator)`. -/
def camSort (l : List CameraInfo) : List CameraInfo :=
  l.foldl (fun acc x => insertCam x acc) []

/-- The two-bucket rank the comparator actually induces: Infrared, then
everything else. -/
def irRank : CameraType → ℕ
  | .infrared => 0
  | _ => 1

/-- The order `cmpCam` sorts by: Infrared devices first (by ascending device
id among themselves), then all non-Infrared devices by ascending device id,
with RGB and Unknown interleaved. -/
def camLe (a b : CameraInfo) : Prop :=
  irRank a.camera_type < irRank b.camera_type ∨
    (irRank a.camera_type = irRank b.camera_type ∧ a.device_id ≤ b.device_id)

/-- The three-bucket rank the claim asserts: IR, then RGB, then Unknown. -/
def rankClaim : CameraType → ℕ
  | .infrared => 0
  | .rgb => 1
  | .unknown => 2

/-- The ordering the claim asserts of the enumeration's output: every IR
device before every RGB device, every RGB device before every Unknown
device, ascending device id within each group. -/
def claimOrdered (l : List CameraInfo) : Prop :=
  l.Pairwise (fun a b =>
    rankClaim a.camera_type < rankClaim b.camera_type ∨
      (rankClaim a.camera_type = rankClaim b.camera_type ∧ a.device_id ≤ b.device_id))

theorem cmpInt_gt_iff (a b : Int) : cmpInt a b = .gt ↔ b < a := by
  unfold cmpInt
  split_ifs with h1 h2 <;> simp <;> omega

theorem cmpCam_not_gt_iff (a b : CameraInfo) : cmpCam a b ≠ .gt ↔ camLe a b := by
  unfold camLe
  cases ha : a.camera_type <;> cases hb : b.camera_type <;>
    (simp [cmpCam, ha, hb, irRank, cmpInt_gt_iff]; try omega)

theorem camLe_total (a b : CameraInfo) : camLe a b ∨ camLe b a := by
  unfold camLe; omega

theorem camLe_trans {a b c : CameraInfo} (h1 : camLe a b) (h2 : camLe b c) :
    camLe a c := by
  unfold camLe at *; omega

theorem mem_insertCam {x z : CameraInfo} :
    ∀ {l : List CameraInfo}, z ∈ insertCam x l → z = x ∨ z ∈ l := by
  intro l
  induction l with
  | nil => simp [insertCam]
  | cons y ys ih =>
    simp only [insertCam]
    split_ifs with h
    · intro hz
      rcases List.mem_cons.mp hz with h1 | h1
      · exact Or.inl h1
      · exact Or.inr h1
    · intro hz
      rcases List.mem_cons.mp hz with h1 | h1
      · subst h1; exact Or.inr (List.mem_cons_self _ _)
      · rcases ih h1 with h2 | h2
        · exact Or.inl h2
        · exact Or.inr (List.mem_cons_of_mem y h2)

theorem pairwise_insertCam {x : CameraInfo} :
    ∀ {l : List CameraInfo}, l.Pairwise camLe → (insertCam x l).Pairwise camLe := by
  intro l
  induction l with
  | nil => intro _; simp [insertCam, List.Pairwise]
  | cons y ys ih =>
    intro hp
    rcases List.pairwise_cons.mp hp with ⟨hy, hys⟩
    simp only [insertCam]
    split_ifs with h
    · have hxy : camLe x y := by
        rcases camLe_total x y with h1 | h1
        · exact h1
        · exact absurd h ((cmpCam_not_gt_iff y x).mpr h1)
      refine List.pairwise_cons.mpr ⟨?_, hp⟩
      intro z hz
      rcases List.mem_cons.mp hz with h1 | h1
      · exact h1 ▸ hxy
      · exact camLe_trans hxy (hy z h1)
    · have hyx : camLe y x := (cmpCam_not_gt_iff y x).mp h
      refine List.pairwise_cons.mpr ⟨?_, ih hys⟩
      intro z hz
      rcases mem_insertCam hz with h1 | h1
      · exact h1 ▸ hyx
      · exact hy z h1

theorem pairwise_camSort_aux :
    ∀ (l acc : List CameraInfo), acc.Pairwise camLe →
      (l.foldl (fun a x => insertCam x a) acc).Pairwise camLe := by
  intro l
  induction l with
  | nil => intro acc h; simpa using h
  | cons x xs ih =>
    intro acc h
    exact ih (insertCam x acc) (pairwise_insertCam h)

/-- C9 counterexample: with an RGB device of id 3 and an Unknown device of
id 1, the enumeration's sort puts the Unknown device first, so the claimed
IR-then-RGB-then-Unknown grouping does not hold of the output. -/
theorem camera_sort_claim_cex :
    camSort [⟨3, "/dev/video3", "HD Camera", CameraType.rgb⟩,
             ⟨1, "/dev/video1", "Camera 1", CameraType.unknown⟩] =
      [⟨1, "/dev/video1", "Camera 1", CameraType.unknown⟩,
       ⟨3, "/dev/video3", "HD Camera", CameraType.rgb⟩] ∧
    ¬ claimOrdered
        [⟨1, "/dev/video1", "Camera 1", CameraType.unknown⟩,
         ⟨3, "/dev/video3", "HD Camera", CameraType.rgb⟩] := by
  constructor
  · rfl
  · intro h
    have := (List.pairwise_cons.mp h).1 _ (List.mem_cons_self _ _)
    simp [rankClaim] at this

/-- C9 (amended): the sequence produced by the enumeration's sort lists every
IR device before every non-IR device and orders the IR devices, and
separately the non-IR devices (RGB and Unknown together, not separated), by
ascending device id. -/
theorem camera_sort_amended (l : List CameraInfo) :
    (camSort l).Pairwise camLe :=
  pairwise_camSort_aux l [] (List.Pairwise.nil)

/-! ## Face matching (pam-glance/src/face.rs)

`compare_face` and `match_face` embed `FaceRecognizer::compare_face` and
`FaceRecognizer::match_face`. `f64` is modelled as `ℚ`; the Euclidean
distance of the external dlib crate (`FaceEncoding::distance`) is the
abstract parameter `dist`, and `FaceEncoding::from_vec`, which succeeds
exactly on vectors of 128 floats, is modelled by the length test `wfEnc`. -/

abbrev Encoding := List ℚ

/-- `f64::MAX`, the initial value of `min_distance` in `compare_face`. -/
def f64MAX : ℚ := (2 ^ 53 - 1) * 2 ^ 971

/-- Whether `FaceEncoding::from_vec` succeeds on the vector: it requires
exactly 128 entries. -/
def wfEnc (v : Encoding) : Bool := v.length == 128

/-- The `for stored_vec in stored` loop of `compare_face`: skip entries
`from_vec` rejects, keep the strictly smaller distance. -/
def foldMinDist (dist : Encoding → Encoding → ℚ) (probe : Encoding) :
    List Encoding → ℚ → ℚ
  | [], m => m
  | v :: rest, m =>
    foldMinDist dist probe rest
      (if wfEnc v then (if dist probe v < m then dist probe v else m) else m)

/-- `FaceRecognizer::compare_face` (face.rs lines 93-116): `None` on an empty
stored set, else the running minimum over well-formed entries starting at
`f64::MAX`, returned iff it is at most the tolerance. -/
def compare_face (tol : ℚ) (dist : Encoding → Encoding → ℚ)
    (probe : Encoding) (stored : List Encoding) : Option ℚ :=
  if stored.isEmpty then none
  else if foldMinDist dist probe stored f64MAX ≤ tol then
    some (foldMinDist dist probe stored f64MAX)
  else none

/-- The `for (username, face_encodings) in users_faces` loop of
`match_face`, with the running best match as accumulator: a new distance
replaces the best exactly when the best is absent or the distance is
strictly smaller. -/
def matchFold (tol : ℚ) (dist : Encoding → Encoding → ℚ) (probe : Encoding) :
    List (String × List Encoding) → Option (String × ℚ) → Option (String × ℚ)
  | [], best => best
  | (u, encs) :: rest, best =>
    matchFold tol dist probe rest
      (match compare_face tol dist probe encs with
       | none => best
       | some d =>
         match best with
         | none => some (u, d)
         | some (bu, bd) => if d < bd then some (u, d) else some (bu, bd))

/-- `FaceRecognizer::match_face` (face.rs lines 118-130). -/
def match_face (tol : ℚ) (dist : Encoding → Encoding → ℚ) (probe : Encoding)
    (users : List (String × List Encoding)) : Option (String × ℚ) :=
  matchFold tol dist probe users none

theorem foldMinDist_spec (dist : Encoding → Encoding → ℚ) (probe : Encoding) :
    ∀ (l : List Encoding) (m : ℚ),
      (foldMinDist dist probe l m = m ∨
        ∃ v ∈ l, wfEnc v = true ∧ dist probe v = foldMinDist dist probe l m) ∧
      foldMinDist dist probe l m ≤ m ∧
      ∀ v ∈ l, wfEnc v = true → foldMinDist dist probe l m ≤ dist probe v := by
  intro l
  induction l with
  | nil =>
    intro m
    exact ⟨Or.inl rfl, le_refl m, by simp⟩
  | cons v rest ih =>
    intro m
    by_cases hw : wfEnc v = true
    · by_cases hd : dist probe v < m
      · have heq : foldMinDist dist probe (v :: rest) m =
            foldMinDist dist probe rest (dist probe v) := by
          simp [foldMinDist, hw, hd]
        obtain ⟨h1, h2, h3⟩ := ih (dist probe v)
        rw [heq]
        refine ⟨?_, le_trans h2 (le_of_lt hd), ?_⟩
        · rcases h1 with h1 | ⟨w, hwm, hww, hwd⟩
          · exact Or.inr ⟨v, List.mem_cons_self _ _, hw, h1.symm⟩
          · exact Or.inr ⟨w, List.mem_cons_of_mem _ hwm, hww, hwd⟩
        · intro w hwm hww
          rcases List.mem_cons.mp hwm with h | h
          · exact h ▸ h2
          · exact h3 w h hww
      · have heq : foldMinDist dist probe (v :: rest) m =
            foldMinDist dist probe rest m := by
          simp [foldMinDist, hw, hd]
        obtain ⟨h1, h2, h3⟩ := ih m
        rw [heq]
        refine ⟨?_, h2, ?_⟩
        · rcases h1 with h1 | ⟨w, hwm, hww, hwd⟩
          · exact Or.inl h1
          · exact Or.inr ⟨w, List.mem_cons_of_mem _ hwm, hww, hwd⟩
        · intro w hwm hww
          rcases List.mem_cons.mp hwm with h | h
          · exact h ▸ le_trans h2 (le_of_not_lt hd)
          · exact h3 w h hww
    · have heq : foldMinDist dist probe (v :: rest) m =
          foldMinDist dist probe rest m := by
        simp [foldMinDist, hw]
      obtain ⟨h1, h2, h3⟩ := ih m
      rw [heq]
      refine ⟨?_, h2, ?_⟩
      · rcases h1 with h1 | ⟨w, hwm, hww, hwd⟩
        · exact Or.inl h1
        · exact Or.inr ⟨w, List.mem_cons_of_mem _ hwm, hww, hwd⟩
      · intro w hwm hww
        rcases List.mem_cons.mp hwm with h | h
        · exact absurd (h ▸ hww) hw
        · exact h3 w h hww

theorem matchFold_none_iff (tol : ℚ) (dist : Encoding → Encoding → ℚ)
    (probe : Encoding) :
    ∀ (users : List (String × List Encoding)) (best : Option (String × ℚ)),
      matchFold tol dist probe users best = none ↔
        best = none ∧ ∀ p ∈ users, compare_face tol dist probe p.2 = none := by
  intro users
  induction users with
  | nil => intro best; simp [matchFold]
  | cons p rest ih =>
    intro best
    obtain ⟨u, encs⟩ := p
    cases hc : compare_face tol dist probe encs with
    | none => simp [matchFold, hc, ih, List.forall_mem_cons]
    | some d =>
      cases best with
      | none => simp [matchFold, hc, ih, List.forall_mem_cons]
      | some b =>
        obtain ⟨bu, bd⟩ := b
        by_cases hlt : d < bd <;>
          simp [matchFold, hc, ih, List.forall_mem_cons, hlt]

theorem matchFold_some (tol : ℚ) (dist : Encoding → Encoding → ℚ)
    (probe : Encoding) :
    ∀ (users : List (String × List Encoding)) (best : Option (String × ℚ))
      (u : String) (d : ℚ),
      matchFold tol dist probe users best = some (u, d) →
      (best = some (u, d) ∨
        ∃ encs, (u, encs) ∈ users ∧ compare_face tol dist probe encs = some d) ∧
      (∀ bu bd, best = some (bu, bd) → d ≤ bd) ∧
      (∀ p ∈ users, ∀ d', compare_face tol dist probe p.2 = some d' → d ≤ d') := by
  intro users
  induction users with
  | nil =>
    intro best u d h
    simp only [matchFold] at h
    subst h
    refine ⟨Or.inl rfl, ?_, by simp⟩
    intro bu bd hb
    simp only [Option.some.injEq, Prod.mk.injEq] at hb
    exact le_of_eq hb.2
  | cons p rest ih =>
    intro best u d h
    obtain ⟨u0, e0⟩ := p
    cases hc : compare_face tol dist probe e0 with
    | none =>
      simp only [matchFold, hc] at h
      obtain ⟨H1, H2, H3⟩ := ih best u d h
      refine ⟨?_, H2, ?_⟩
      · rcases H1 with H1 | ⟨encs, hm, hcmp⟩
        · exact Or.inl H1
        · exact Or.inr ⟨encs, List.mem_cons_of_mem _ hm, hcmp⟩
      · intro q hq d' hd'
        rcases List.mem_cons.mp hq with hq | hq
        · rw [hq] at hd'
          simp only at hd'
          rw [hc] at hd'
          exact absurd hd' (by simp)
        · exact H3 q hq d' hd'
    | some d0 =>
      cases best with
      | none =>
        simp only [matchFold, hc] at h
        obtain ⟨H1, H2, H3⟩ := ih (some (u0, d0)) u d h
        have hd0 : d ≤ d0 := H2 u0 d0 rfl
        refine ⟨?_, by simp, ?_⟩
        · rcases H1 with H1 | ⟨encs, hm, hcmp⟩
          · obtain ⟨hu, hd2⟩ : u0 = u ∧ d0 = d := by
              simpa [Prod.mk.injEq] using Option.some.inj H1
            subst hu; subst hd2
            exact Or.inr ⟨e0, List.mem_cons_self _ _, hc⟩
          · exact Or.inr ⟨encs, List.mem_cons_of_mem _ hm, hcmp⟩
        · intro q hq d' hd'
          rcases List.mem_cons.mp hq with hq | hq
          · rw [hq] at hd'
            simp only at hd'
            rw [hc] at hd'
            have : d' = d0 := (Option.some.inj hd').symm
            exact this ▸ hd0
          · exact H3 q hq d' hd'
      | some b =>
        obtain ⟨bu, bd⟩ := b
        by_cases hlt : d0 < bd
        · simp only [matchFold, hc, if_pos hlt] at h
          obtain ⟨H1, H2, H3⟩ := ih (some (u0, d0)) u d h
          have hd0 : d ≤ d0 := H2 u0 d0 rfl
          refine ⟨?_, ?_, ?_⟩
          · rcases H1 with H1 | ⟨encs, hm, hcmp⟩
            · obtain ⟨hu, hd2⟩ : u0 = u ∧ d0 = d := by
                simpa [Prod.mk.injEq] using Option.some.inj H1
              subst hu; subst hd2
              exact Or.inr ⟨e0, List.mem_cons_self _ _, hc⟩
            · exact Or.inr ⟨encs, List.mem_cons_of_mem _ hm, hcmp⟩
          · intro bu' bd' hb
            obtain ⟨hb1, hb2⟩ : bu = bu' ∧ bd = bd' := by
              simpa [Prod.mk.injEq] using Option.some.inj hb
            exact hb2 ▸ le_trans hd0 (le_of_lt hlt)
          · intro q hq d' hd'
            rcases List.mem_cons.mp hq with hq | hq
            · rw [hq] at hd'
              simp only at hd'
              rw [hc] at hd'
              have : d' = d0 := (Option.some.inj hd').symm
              exact this ▸ hd0
            · exact H3 q hq d' hd'
        · simp only [matchFold, hc, if_neg hlt] at h
          obtain ⟨H1, H2, H3⟩ := ih (some (bu, bd)) u d h
          have hdbd : d ≤ bd := H2 bu bd rfl
          refine ⟨?_, ?_, ?_⟩
          · rcases H1 with H1 | ⟨encs, hm, hcmp⟩
            · exact Or.inl H1
            · exact Or.inr ⟨encs, List.mem_cons_of_mem _ hm, hcmp⟩
          · intro bu' bd' hb
            obtain ⟨hb1, hb2⟩ : bu = bu' ∧ bd = bd' := by
              simpa [Prod.mk.injEq] using Option.some.inj hb
            exact hb2 ▸ hdbd
          · intro q hq d' hd'
            rcases List.mem_cons.mp hq with hq | hq
            · rw [hq] at hd'
              simp only at hd'
              rw [hc] at hd'
              have : d' = d0 := (Option.some.inj hd').symm
              exact this ▸ le_trans hdbd (le_of_not_lt hlt)
            · exact H3 q hq d' hd'

/-- The distance function used to instantiate witnesses on concrete inputs. -/
def distZero : Encoding → Encoding → ℚ := fun _ _ => 0

/-- C4: `compare_face` returns `none` on an empty stored set; on a non-empty
set of well-formed encodings (distances below the `f64::MAX` sentinel, as any
`f64` distance is) it returns `some d` exactly when `d` is the minimum
distance from the probe to the stored encodings and `d ≤ tolerance`; a
`match_face` result is one user's `compare_face` result and is minimal among
all users' results, and `match_face` is `none` exactly when every user's
`compare_face` is `none`. -/
theorem compare_match_correct (tol : ℚ) (dist : Encoding → Encoding → ℚ)
    (probe : Encoding) :
    compare_face tol dist probe [] = none ∧
    (∀ stored : List Encoding, stored ≠ [] →
      (∀ v ∈ stored, wfEnc v = true) →
      (∀ v ∈ stored, dist probe v < f64MAX) → tol < f64MAX →
      ∀ d, compare_face tol dist probe stored = some d ↔
        (d ≤ tol ∧ (∃ v ∈ stored, dist probe v = d) ∧
          ∀ v ∈ stored, d ≤ dist probe v)) ∧
    (∀ (users : List (String × List Encoding)) (u : String) (d : ℚ),
      match_face tol dist probe users = some (u, d) →
      (∃ encs, (u, encs) ∈ users ∧ compare_face tol dist probe encs = some d) ∧
      ∀ p ∈ users, ∀ d', compare_face tol dist probe p.2 = some d' → d ≤ d') ∧
    (∀ users : List (String × List Encoding),
      match_face tol dist probe users = none ↔
        ∀ p ∈ users, compare_face tol dist probe p.2 = none) := by
  refine ⟨rfl, ?_, ?_, ?_⟩
  · intro stored hne hwf hlt htol d
    obtain ⟨h1, h2, h3⟩ := foldMinDist_spec dist probe stored f64MAX
    have hnotempty : stored.isEmpty = false := by
      cases stored with
      | nil => exact absurd rfl hne
      | cons a l => rfl
    constructor
    · intro hcmp
      unfold compare_face at hcmp
      rw [hnotempty] at hcmp
      simp only [Bool.false_eq_true, if_false] at hcmp
      by_cases hle : foldMinDist dist probe stored f64MAX ≤ tol
      · rw [if_pos hle] at hcmp
        have hd : foldMinDist dist probe stored f64MAX = d := Option.some.inj hcmp
        refine ⟨hd ▸ hle, ?_, ?_⟩
        · rcases h1 with h1 | ⟨v, hv, _, hvd⟩
          · exfalso
            rw [h1] at hle
            exact absurd hle (not_le_of_lt htol)
          · exact ⟨v, hv, hvd.trans hd⟩
        · intro v hv
          exact hd ▸ h3 v hv (hwf v hv)
      · rw [if_neg hle] at hcmp
        exact absurd hcmp (by simp)
    · rintro ⟨hdtol, ⟨v, hv, hvd⟩, hmin⟩
      have hfold_le : foldMinDist dist probe stored f64MAX ≤ d :=
        hvd ▸ h3 v hv (hwf v hv)
      have hle_fold : d ≤ foldMinDist dist probe stored f64MAX := by
        rcases h1 with h1 | ⟨w, hw, _, hwd⟩
        · exfalso
          have : dist probe v < f64MAX := hlt v hv
          rw [← h1] at this
          exact absurd (lt_of_le_of_lt hfold_le (hvd ▸ this)) (lt_irrefl _)
        · exact hwd ▸ hmin w hw
      have heq : foldMinDist dist probe stored f64MAX = d :=
        le_antisymm hfold_le hle_fold
      unfold compare_face
      rw [hnotempty]
      simp only [Bool.false_eq_true, if_false]
      rw [if_pos (heq ▸ hdtol), heq]
  · intro users u d h
    obtain ⟨H1, _, H3⟩ := matchFold_some tol dist probe users none u d h
    refine ⟨?_, H3⟩
    rcases H1 with H1 | H1
    · exact absurd H1 (by simp)
    · exact H1
  · intro users
    rw [match_face, matchFold_none_iff]
    simp

/-- C10: `compare_face` silently skips stored vectors `from_vec` rejects
(length ≠ 128): whenever it returns `some d`, `d` is at most the tolerance,
is the distance to some well-formed stored entry and is minimal among the
well-formed entries; and when no stored entry is well-formed it returns
`none` (the running minimum stays at the `f64::MAX` sentinel, above any real
tolerance). -/
theorem compare_face_skips_malformed (tol : ℚ) (dist : Encoding → Encoding → ℚ)
    (probe : Encoding) (stored : List Encoding)
    (htol : tol < f64MAX) :
    (∀ d, compare_face tol dist probe stored = some d →
        d ≤ tol ∧ (∃ v ∈ stored, wfEnc v = true ∧ dist probe v = d) ∧
          ∀ v ∈ stored, wfEnc v = true → d ≤ dist probe v) ∧
    ((∀ v ∈ stored, ¬ wfEnc v = true) →
      compare_face tol dist probe stored = none) := by
  obtain ⟨h1, _, h3⟩ := foldMinDist_spec dist probe stored f64MAX
  constructor
  · intro d hcmp
    unfold compare_face at hcmp
    by_cases hne : stored.isEmpty
    · rw [if_pos hne] at hcmp
      exact absurd hcmp (by simp)
    · rw [if_neg hne] at hcmp
      by_cases hle : foldMinDist dist probe stored f64MAX ≤ tol
      · rw [if_pos hle] at hcmp
        have hd : foldMinDist dist probe stored f64MAX = d := Option.some.inj hcmp
        refine ⟨hd ▸ hle, ?_, ?_⟩
        · rcases h1 with h1 | ⟨v, hv, hw, hvd⟩
          · exfalso
            rw [h1] at hle
            exact absurd hle (not_le_of_lt htol)
          · exact ⟨v, hv, hw, hvd.trans hd⟩
        · intro v hv hw
          exact hd ▸ h3 v hv hw
      · rw [if_neg hle] at hcmp
        exact absurd hcmp (by simp)
  · intro hall
    have hfold : foldMinDist dist probe stored f64MAX = f64MAX := by
      rcases h1 with h1 | ⟨v, hv, hw, _⟩
      · exact h1
      · exact absurd hw (hall v hv)
    unfold compare_face
    by_cases hne : stored.isEmpty
    · rw [if_pos hne]
    · rw [if_neg hne, if_neg (by rw [hfold]; exact not_le_of_lt htol)]

/-- Witness instantiating C10 at a concrete input: with tolerance 0, a zero
distance function and the single malformed stored vector `[1]` (length 1,
not 128), `compare_face` returns `none`. -/
theorem compare_face_skips_malformed_inst :
    compare_face 0 distZero [] [[(1 : ℚ)]] = none :=
  (compare_face_skips_malformed 0 distZero [] [[(1 : ℚ)]]
      (by unfold f64MAX; positivity)).2
    (by decide)

/-! ## The supervised authenticator (pam-glance/src/auth.rs)

`AuthResult` embeds the result enum. The supervisor `authenticate` (auth.rs
lines 111-145) spawns a worker and blocks on `mpsc::recv_timeout` with
deadline `timeout + 500ms`; the worker either sends its result at some
instant, panics (disconnecting the channel) at some instant, or never
terminates. Time is modelled in milliseconds; `recv_timeout`'s contract is:
a value sent within the deadline is received when sent, a disconnect within
the deadline is observed when it happens, and otherwise the call returns
`Err(Timeout)` at the deadline. -/

inductive AuthResult where
  | success (username : String) (confidence : ℚ) (camera_type : CameraType)
  | noFaceDetected
  | noMatch
  | error (msg : String)
  | timeout
deriving DecidableEq

inductive WorkerOutcome where
  | delivers (at_ms : ℕ) (r : AuthResult)
  | panics (at_ms : ℕ)
  | hangs
deriving DecidableEq

/-- `authenticate` (auth.rs lines 111-145): result and return instant of the
supervisor, given the worker's behavior. `Ok(result)` passes the worker's
result through; `Err(Timeout)` yields `AuthResult::Timeout`;
`Err(Disconnected)` (worker panicked) yields `Error("Internal error")`. -/
def authenticate (timeout_ms : ℕ) (w : WorkerOutcome) : AuthResult × ℕ :=
  match w with
  | .delivers t r =>
    if t ≤ timeout_ms + 500 then (r, t) else (.timeout, timeout_ms + 500)
  | .panics t =>
    if t ≤ timeout_ms + 500 then (.error "Internal error", t)
    else (.timeout, timeout_ms + 500)
  | .hangs => (.timeout, timeout_ms + 500)

/-- C1: for every configured timeout `t` and every worker behavior —
including a worker stuck forever on a camera whose `read()` blocks — the
supervisor returns within `t + 500ms`; when the worker delivers no result
within `t + 500ms` (late delivery, late panic, or hang) it returns
`Timeout`, and when the worker panics within the deadline (one-shot channel
disconnected) it returns `Error("Internal error")`. -/
theorem authenticate_hard_deadline (t : ℕ) (w : WorkerOutcome) :
    (authenticate t w).2 ≤ t + 500 ∧
    (w = .hangs → (authenticate t w).1 = .timeout) ∧
    (∀ s r, w = .delivers s r → t + 500 < s → (authenticate t w).1 = .timeout) ∧
    (∀ s, w = .panics s → t + 500 < s → (authenticate t w).1 = .timeout) ∧
    (∀ s, w = .panics s → s ≤ t + 500 →
      (authenticate t w).1 = .error "Internal error") ∧
    (∀ s r, w = .delivers s r → s ≤ t + 500 → (authenticate t w).1 = r) := by
  cases w with
  | delivers s r =>
    by_cases h : s ≤ t + 500
    · refine ⟨?_, by simp, ?_, by simp, by simp, ?_⟩
      · simp [authenticate, h]
      · intro s' r' he hlt
        injection he with h1 h2
        subst h1
        exact absurd hlt (by omega)
      · intro s' r' he _
        injection he with h1 h2
        subst h1; subst h2
        simp [authenticate, h]
    · refine ⟨?_, by simp, ?_, by simp, by simp, ?_⟩
      · simp [authenticate, h]
      · intro s' r' he hlt
        injection he with h1 h2
        subst h1; subst h2
        simp [authenticate, h]
      · intro s' r' he hle
        injection he with h1 h2
        subst h1
        exact absurd hle h
  | panics s =>
    by_cases h : s ≤ t + 500
    · refine ⟨?_, by simp, by simp, ?_, ?_, by simp⟩
      · simp [authenticate, h]
      · intro s' he hlt
        injection he with h1
        subst h1
        exact absurd hlt (by omega)
      · intro s' he _
        injection he with h1
        subst h1
        simp [authenticate, h]
    · refine ⟨?_, by simp, by simp, ?_, ?_, by simp⟩
      · simp [authenticate, h]
      · intro s' he hlt
        injection he with h1
        subst h1
        simp [authenticate, h]
      · intro s' he hle
        injection he with h1
        subst h1
        exact absurd hle h
  | hangs =>
    refine ⟨?_, fun _ => rfl, by simp, by simp, by simp, by simp⟩
    simp [authenticate]

/-! ## The worker algorithm (pam-glance/src/auth.rs, authenticate_inner)

`authenticate_inner` is embedded as a function of an environment recording
the outcome of every external call it makes: the template load, each
`Instant::elapsed` reading, the camera detection, and per camera the
recognizer construction, the device open and the scripted outcome of each
loop iteration. The IR-emitter block only produces side effects (the
`cleanup_and_return!` macro returns its argument unchanged), so it does not
appear in the value-level model. A `camLoop` result of `none` means the
script ran out while the loop would have kept iterating (a camera that
blocks forever); such executions deliver no worker result and are covered by
the supervisor theorem, not here. -/

structure AuthConfig where
  timeout : ℕ
  prefer_ir : Bool
  ir_tolerance : ℚ
  rgb_tolerance : ℚ
  target_user : Option String
  max_frames_per_camera : ℕ
  frame_delay_ms : ℕ
deriving DecidableEq

/-- One iteration of the per-camera frame loop: the `elapsed` reading at the
top of the loop, and the outcome of `camera.read()` — `none` for a read
error, `some faces` for a frame whose `detect_faces` call found the given
face encodings (a detection error or empty detection is the empty list: both
`continue`). -/
structure Tick where
  elapsed : ℕ
  read : Option (List Encoding)
deriving DecidableEq

/-- One enumerated camera with the scripted outcomes of its calls:
`elapsedAtStart` is the `elapsed` reading at the top of the camera for-loop,
`recognizerOk` whether `FaceRecognizer::new` succeeds, `openResult` the
outcome of `SmartCamera::open_direct` (`some is_ir` on success),
`reinitOk` whether the tolerance-correcting second `FaceRecognizer::new`
succeeds, and `ticks` the scripted frame loop. -/
structure CamEnv where
  info : CameraInfo
  elapsedAtStart : ℕ
  recognizerOk : Bool
  openResult : Option Bool
  reinitOk : Bool
  ticks : List Tick
deriving DecidableEq

structure AuthEnv where
  load_faces : Except String (List (String × List Encoding))
  elapsed_after_load : ℕ
  detect : Except String (List CamEnv)

/-- The `prefer_ir` reordering of auth.rs lines 214-226: the preferred type,
then the other, then Unknown. -/
def sortCameras (prefer_ir : Bool) (cams : List CamEnv) : List CamEnv :=
  if prefer_ir then
    cams.filter (fun c => c.info.camera_type == CameraType.infrared) ++
    cams.filter (fun c => c.info.camera_type == CameraType.rgb) ++
    cams.filter (fun c => c.info.camera_type == CameraType.unknown)
  else
    cams.filter (fun c => c.info.camera_type == CameraType.rgb) ++
    cams.filter (fun c => c.info.camera_type == CameraType.infrared) ++
    cams.filter (fun c => c.info.camera_type == CameraType.unknown)

/-- The `target_user` restriction of auth.rs lines 319-326. -/
def facesToCheck (target : Option String) (reg : List (String × List Encoding)) :
    List (String × List Encoding) :=
  match target with
  | some t => reg.filter (fun p => p.1 == t)
  | none => reg

/-- The tolerance the frame loop matches with (auth.rs lines 235, 260-269):
initially chosen from the name-detected type; recomputed from the opened
camera's actual `is_ir`, and used only if it differs by more than 0.001 and
the recognizer re-initialization succeeds. -/
def effectiveTolerance (cfg : AuthConfig) (nameIsIr actualIsIr reinitOk : Bool) : ℚ :=
  if 1 / 1000 < |(if actualIsIr then cfg.ir_tolerance else cfg.rgb_tolerance) -
      (if nameIsIr then cfg.ir_tolerance else cfg.rgb_tolerance)| then
    (if reinitOk then (if actualIsIr then cfg.ir_tolerance else cfg.rgb_tolerance)
     else (if nameIsIr then cfg.ir_tolerance else cfg.rgb_tolerance))
  else (if nameIsIr then cfg.ir_tolerance else cfg.rgb_tolerance)

inductive FrameOutcome where
  | success (username : String) (distance : ℚ)
  | moveOn
deriving DecidableEq

/-- The per-camera frame loop (auth.rs lines 276-340), with `frames` and
`consecutive_failures` as state: break on the deadline, the frame budget or
5 consecutive read failures (`moveOn`); a read error increments the failure
counter; a successful read resets it, counts a frame, and scans the detected
faces for a template match (`success` returns immediately). -/
def camLoop (cfg : AuthConfig) (dist : Encoding → Encoding → ℚ) (tol : ℚ)
    (reg : List (String × List Encoding)) :
    List Tick → ℕ → ℕ → Option FrameOutcome
  | [], _, _ => none
  | tk :: rest, frames, consec =>
    if cfg.timeout ≤ tk.elapsed then some .moveOn
    else if cfg.max_frames_per_camera ≤ frames then some .moveOn
    else if 5 ≤ consec then some .moveOn
    else
      match tk.read with
      | none => camLoop cfg dist tol reg rest frames (consec + 1)
      | some faces =>
        match faces.findSome?
            (fun enc => match_face tol dist enc (facesToCheck cfg.target_user reg)) with
        | some (u, d) => some (.success u d)
        | none => camLoop cfg dist tol reg rest (frames + 1) 0

inductive CamResult where
  | success (username : String) (confidence : ℚ) (camera_type : CameraType)
  | moveOn
deriving DecidableEq

/-- One camera's turn in the for-loop body (auth.rs lines 242-342): a failed
recognizer init or open continues to the next camera; a successful open runs
the frame loop with the effective tolerance, and a match becomes
`Success { username, confidence = 1 - distance, camera_type }` where the
camera type is taken from the opened camera's actual `is_ir`. -/
def tryCamera (cfg : AuthConfig) (dist : Encoding → Encoding → ℚ)
    (reg : List (String × List Encoding)) (c : CamEnv) : Option CamResult :=
  if ¬ c.recognizerOk then some .moveOn
  else
    match c.openResult with
    | none => some .moveOn
    | some isIr =>
      match camLoop cfg dist
          (effectiveTolerance cfg (c.info.camera_type == CameraType.infrared) isIr c.reinitOk)
          reg c.ticks 0 0 with
      | none => none
      | some (.success u d) =>
        some (.success u (1 - d) (if isIr then CameraType.infrared else CameraType.rgb))
      | some .moveOn => some .moveOn

/-- The camera for-loop of auth.rs lines 229-343, with the fall-through
`NoMatch` at line 348: a deadline reading at the top of a turn breaks out of
the loop (yielding `NoMatch`); otherwise the camera's turn either succeeds,
moves on, or (script exhausted) delivers no result. -/
def goCameras (cfg : AuthConfig) (dist : Encoding → Encoding → ℚ)
    (reg : List (String × List Encoding)) : List CamEnv → Option AuthResult
  | [] => some .noMatch
  | c :: rest =>
    if cfg.timeout ≤ c.elapsedAtStart then some .noMatch
    else
      match tryCamera cfg dist reg c with
      | none => none
      | some (.success u conf ct) => some (.success u conf ct)
      | some .moveOn => goCameras cfg dist reg rest

/-- `authenticate_inner` (auth.rs lines 149-349) as a function of the
environment: template load (error → `Error("Load faces: …")`; empty →
`NoMatch`), the post-load deadline check (→ `Timeout`), camera detection
(error → `Error("Detection: …")`; empty → `Error("No cameras found")`), then
the prioritized camera loop. `none` models a worker that never returns. -/
def authenticate_inner (cfg : AuthConfig) (dist : Encoding → Encoding → ℚ)
    (env : AuthEnv) : Option AuthResult :=
  match env.load_faces with
  | .error e => some (.error ("Load faces: " ++ e))
  | .ok faces =>
    if faces.isEmpty then some .noMatch
    else if cfg.timeout ≤ env.elapsed_after_load then some .timeout
    else
      match env.detect with
      | .error e => some (.error ("Detection: " ++ e))
      | .ok cams =>
        if cams.isEmpty then some (.error "No cameras found")
        else goCameras cfg dist faces (sortCameras cfg.prefer_ir cams)

/-- C2: when template loading succeeds but yields no registered faces, the
worker returns `NoMatch` — never `Error` — so the PAM stack can fall through
to the password prompt. -/
theorem authenticate_inner_no_templates_noMatch (cfg : AuthConfig)
    (dist : Encoding → Encoding → ℚ) (env : AuthEnv)
    (h : env.load_faces = .ok []) :
    authenticate_inner cfg dist env = some .noMatch := by
  unfold authenticate_inner
  rw [h]
  rfl

theorem camLoop_five_failures (cfg : AuthConfig) (dist : Encoding → Encoding → ℚ)
    (tol : ℚ) (reg : List (String × List Encoding)) :
    ∀ (es : List Tick) (consec frames : ℕ) (tk : Tick) (rest : List Tick),
      (∀ e ∈ es, e.elapsed < cfg.timeout ∧ e.read = none) →
      consec + es.length = 5 →
      frames < cfg.max_frames_per_camera →
      camLoop cfg dist tol reg (es ++ tk :: rest) frames consec = some .moveOn := by
  intro es
  induction es with
  | nil =>
    intro consec frames tk rest _ hlen hf
    simp only [List.length_nil, Nat.add_zero] at hlen
    subst hlen
    simp only [List.nil_append, camLoop]
    by_cases h1 : cfg.timeout ≤ tk.elapsed
    · rw [if_pos h1]
    · rw [if_neg h1, if_neg (by omega), if_pos (by omega)]
  | cons e es' ih =>
    intro consec frames tk rest hall hlen hf
    obtain ⟨he1, he2⟩ := hall e (List.mem_cons_self _ _)
    simp only [List.length_cons] at hlen
    simp only [List.cons_append, camLoop]
    rw [if_neg (by omega), if_neg (by omega), if_neg (by omega), he2]
    exact ih (consec + 1) frames tk rest
      (fun x hx => hall x (List.mem_cons_of_mem _ hx)) (by omega) hf

theorem camLoop_failure_reset (cfg : AuthConfig) (dist : Encoding → Encoding → ℚ)
    (tol : ℚ) (reg : List (String × List Encoding)) :
    ∀ (es : List Tick) (consec frames : ℕ) (tk : Tick) (rest : List Tick)
      (fcs : List Encoding),
      (∀ e ∈ es, e.elapsed < cfg.timeout ∧ e.read = none) →
      consec + es.length < 5 →
      frames < cfg.max_frames_per_camera →
      tk.elapsed < cfg.timeout →
      tk.read = some fcs →
      fcs.findSome?
        (fun enc => match_face tol dist enc (facesToCheck cfg.target_user reg)) = none →
      camLoop cfg dist tol reg (es ++ tk :: rest) frames consec =
        camLoop cfg dist tol reg rest (frames + 1) 0 := by
  intro es
  induction es with
  | nil =>
    intro consec frames tk rest fcs _ hlen hf htk hread hfind
    simp only [List.length_nil, Nat.add_zero] at hlen
    simp only [List.nil_append, camLoop]
    rw [if_neg (by omega), if_neg (by omega), if_neg (by omega), hread]
    simp only [hfind]
  | cons e es' ih =>
    intro consec frames tk rest fcs hall hlen hf htk hread hfind
    obtain ⟨he1, he2⟩ := hall e (List.mem_cons_self _ _)
    simp only [List.length_cons] at hlen
    simp only [List.cons_append, camLoop]
    rw [if_neg (by omega), if_neg (by omega), if_neg (by omega), he2]
    exact ih (consec + 1) frames tk rest fcs
      (fun x hx => hall x (List.mem_cons_of_mem _ hx)) (by omega) hf htk hread hfind

theorem goCameras_exhausted (cfg : AuthConfig) (dist : Encoding → Encoding → ℚ)
    (reg : List (String × List Encoding)) :
    ∀ l : List CamEnv,
      (∀ c ∈ l, tryCamera cfg dist reg c = some .moveOn ∨
        cfg.timeout ≤ c.elapsedAtStart) →
      goCameras cfg dist reg l = some .noMatch := by
  intro l
  induction l with
  | nil => intro _; rfl
  | cons c rest ih =>
    intro hall
    simp only [goCameras]
    by_cases h1 : cfg.timeout ≤ c.elapsedAtStart
    · rw [if_pos h1]
    · rw [if_neg h1]
      rcases hall c (List.mem_cons_self _ _) with h2 | h2
      · rw [h2]
        exact ih (fun x hx => hall x (List.mem_cons_of_mem _ hx))
      · exact absurd h2 h1

/-- Configuration used by concrete instances: the defaults of
`AuthConfig::default()` (timeout 3s, prefer IR, tolerances 0.45 / 0.50,
15 frames per camera, 33ms frame delay). -/
def cfgW : AuthConfig :=
  { timeout := 3000, prefer_ir := true, ir_tolerance := 9 / 20,
    rgb_tolerance := 1 / 2, target_user := none,
    max_frames_per_camera := 15, frame_delay_ms := 33 }

/-- An environment whose camera detection succeeds with an empty list. -/
def envNoCams : AuthEnv :=
  { load_faces := .ok [("alice", [[1]])], elapsed_after_load := 0,
    detect := .ok [] }

/-- C3 counterexample: with one registered user and a camera enumeration
that succeeds but finds no cameras, the worker returns
`Error("No cameras found")` — not `NoMatch` as the claim states. -/
theorem authenticate_inner_no_cameras_is_error :
    authenticate_inner cfgW distZero envNoCams =
      some (.error "No cameras found") ∧
    authenticate_inner cfgW distZero envNoCams ≠ some .noMatch := by
  constructor
  · rfl
  · intro h
    rw [show authenticate_inner cfgW distZero envNoCams =
        some (AuthResult.error "No cameras found") from rfl] at h
    simp at h

/-- C3 (amended): with templates loaded, the deadline not yet reached and
camera enumeration succeeding, (i) an empty enumeration yields
`Error("No cameras found")`, not `NoMatch`; (ii) when every enumerated
camera's turn either moves on (open failure, recognizer failure, the frame
budget, 5 consecutive read failures) or hits the deadline, the worker
returns `NoMatch`, not `Error`; (iii) within one camera, 5 consecutive read
failures before the deadline and frame budget end that camera's loop; and
(iv) a successful read after fewer than 5 consecutive failures resets the
failure counter to 0 and counts one frame. -/
theorem authenticate_inner_exhaustion_policy (cfg : AuthConfig)
    (dist : Encoding → Encoding → ℚ) (env : AuthEnv)
    (faces : List (String × List Encoding)) (cams : List CamEnv)
    (hload : env.load_faces = .ok faces) (hne : faces ≠ [])
    (helapsed : env.elapsed_after_load < cfg.timeout)
    (hdetect : env.detect = .ok cams) :
    (cams = [] →
      authenticate_inner cfg dist env = some (.error "No cameras found")) ∧
    ((∀ c ∈ sortCameras cfg.prefer_ir cams,
        tryCamera cfg dist faces c = some .moveOn ∨
          cfg.timeout ≤ c.elapsedAtStart) →
      authenticate_inner cfg dist env = some .noMatch ∨ cams = []) ∧
    (∀ (tol : ℚ) (es : List Tick) (consec frames : ℕ) (tk : Tick)
        (rest : List Tick),
      (∀ e ∈ es, e.elapsed < cfg.timeout ∧ e.read = none) →
      consec + es.length = 5 →
      frames < cfg.max_frames_per_camera →
      camLoop cfg dist tol faces (es ++ tk :: rest) frames consec =
        some .moveOn) ∧
    (∀ (tol : ℚ) (es : List Tick) (consec frames : ℕ) (tk : Tick)
        (rest : List Tick) (fcs : List Encoding),
      (∀ e ∈ es, e.elapsed < cfg.timeout ∧ e.read = none) →
      consec + es.length < 5 →
      frames < cfg.max_frames_per_camera →
      tk.elapsed < cfg.timeout →
      tk.read = some fcs →
      fcs.findSome?
        (fun enc => match_face tol dist enc (facesToCheck cfg.target_user faces)) = none →
      camLoop cfg dist tol faces (es ++ tk :: rest) frames consec =
        camLoop cfg dist tol faces rest (frames + 1) 0) := by
  have hfe : faces.isEmpty = false := by
    cases faces with
    | nil => exact absurd rfl hne
    | cons a l => rfl
  refine ⟨?_, ?_, ?_, ?_⟩
  · intro hcams
    subst hcams
    unfold authenticate_inner
    rw [hload, hdetect]
    simp only [hfe, Bool.false_eq_true, if_false, if_neg (not_le_of_lt helapsed)]
    rfl
  · intro hall
    cases cams with
    | nil => exact Or.inr rfl
    | cons c0 crest =>
      left
      unfold authenticate_inner
      rw [hload, hdetect]
      simp only [hfe, Bool.false_eq_true, if_false, if_neg (not_le_of_lt helapsed),
        List.isEmpty_cons]
      exact goCameras_exhausted cfg dist faces _ hall
  · intro tol es consec frames tk rest h1 h2 h3
    exact camLoop_five_failures cfg dist tol faces es consec frames tk rest h1 h2 h3
  · intro tol es consec frames tk rest fcs h1 h2 h3 h4 h5 h6
    exact camLoop_failure_reset cfg dist tol faces es consec frames tk rest fcs
      h1 h2 h3 h4 h5 h6

/-- A camera whose device open fails (its turn moves on). -/
def camClosed : CamEnv :=
  { info := ⟨0, "/dev/video0", "HD Camera", CameraType.rgb⟩,
    elapsedAtStart := 0, recognizerOk := true, openResult := none,
    reinitOk := true, ticks := [] }

/-- An environment with one registered user and one camera that fails to
open. -/
def envOneCam : AuthEnv :=
  { load_faces := .ok [("alice", [[1]])], elapsed_after_load := 0,
    detect := .ok [camClosed] }

/-- Witness instantiating C3 (amended): one registered user, one camera
whose open fails — every camera's turn moves on, and the worker returns
`NoMatch`. -/
theorem authenticate_inner_exhaustion_policy_inst :
    authenticate_inner cfgW distZero envOneCam = some .noMatch ∨
      [camClosed] = ([] : List CamEnv) :=
  (authenticate_inner_exhaustion_policy cfgW distZero envOneCam
      [("alice", [[1]])] [camClosed] rfl (by simp) (by decide) rfl).2.1
    (by decide)

/-- An environment whose template load succeeds with no registered faces. -/
def envEmptyLoad : AuthEnv :=
  { load_faces := .ok [], elapsed_after_load := 0, detect := .ok [] }

/-- Witness instantiating C2: an empty successful template load yields
`NoMatch`. -/
theorem authenticate_inner_no_templates_noMatch_inst :
    authenticate_inner cfgW distZero envEmptyLoad = some .noMatch :=
  authenticate_inner_no_templates_noMatch cfgW distZero envEmptyLoad rfl

/-! ## Enrollment save (glance/src/storage.rs and glance/src/window.rs)

`FaceData` and its methods embed the template record of storage.rs (lines
81-132); RFC3339 timestamps are modelled as natural numbers and each
`chrono::Utc::now()` call reads a clock function at a running call counter.
`save_captured_face` (window.rs lines 1000-1062) builds the template from the
session's three buckets; `on_pose_captured` (window.rs lines 938-998) is the
per-capture transition, whose early return on the IR-to-RGB camera switch
(line 977) skips the legacy-bucket push of line 986. -/

structure FaceEncodingRecord where
  encoding : Encoding
  pose : String
  camera_type : String
deriving DecidableEq

structure FaceData where
  username : String
  encodings : List FaceEncodingRecord
  ir_encodings : List FaceEncodingRecord
  rgb_encodings : List FaceEncodingRecord
  ir_captured : Bool
  rgb_captured : Bool
  created_at : ℕ
  updated_at : ℕ
deriving DecidableEq

/-- `FaceData::new`. -/
def FaceData.new (username : String) (now : ℕ) : FaceData :=
  { username := username, encodings := [], ir_encodings := [],
    rgb_encodings := [], ir_captured := false, rgb_captured := false,
    created_at := now, updated_at := now }

/-- `FaceData::add_encoding` (legacy bucket, camera_type `""`). -/
def FaceData.add_encoding (d : FaceData) (enc : Encoding) (pose : String)
    (now : ℕ) : FaceData :=
  { d with encodings := d.encodings ++ [⟨enc, pose, ""⟩], updated_at := now }

/-- `FaceData::add_ir_encoding`. -/
def FaceData.add_ir_encoding (d : FaceData) (enc : Encoding) (pose : String)
    (now : ℕ) : FaceData :=
  { d with
      ir_encodings := d.ir_encodings ++ [⟨enc, pose, "ir"⟩]
      ir_captured := true
      updated_at := now }

/-- `FaceData::add_rgb_encoding`. -/
def FaceData.add_rgb_encoding (d : FaceData) (enc : Encoding) (pose : String)
    (now : ℕ) : FaceData :=
  { d with
      rgb_encodings := d.rgb_encodings ++ [⟨enc, pose, "rgb"⟩]
      rgb_captured := true
      updated_at := now }

/-- `FaceData::all_encodings`: legacy, then IR, then RGB. -/
def FaceData.all_encodings (d : FaceData) : List FaceEncodingRecord :=
  d.encodings ++ d.ir_encodings ++ d.rgb_encodings

/-- A `for` loop calling one of the `add_*` methods on each `(encoding,
pose)` pair, threading the `Utc::now()` call counter. -/
def addWith (f : FaceData → Encoding → String → ℕ → FaceData) (clock : ℕ → ℕ) :
    FaceData → List (Encoding × String) → ℕ → FaceData × ℕ
  | d, [], k => (d, k)
  | d, (e, p) :: rest, k => addWith f clock (f d e p (clock k)) rest (k + 1)

/-- `save_captured_face` (window.rs lines 1000-1062), template construction:
new record stamped at `t0`, the IR loop, the `ir_captured = !ir.is_empty()`
assignment of line 1026, the RGB loop, the `rgb_captured` assignment of line
1032, then the legacy loop of lines 1035-1037. -/
def save_captured_face (username : String) (t0 : ℕ) (clock : ℕ → ℕ)
    (ir rgb legacy : List (Encoding × String)) : FaceData :=
  let d0 := FaceData.new username t0
  let r1 := addWith FaceData.add_ir_encoding clock d0 ir 0
  let d2 := { r1.1 with ir_captured := !ir.isEmpty }
  let r3 := addWith FaceData.add_rgb_encoding clock d2 rgb r1.2
  let d4 := { r3.1 with rgb_captured := !rgb.isEmpty }
  (addWith FaceData.add_encoding clock d4 legacy r3.2).1

/-- The in-memory capture session state used by `on_pose_captured`. -/
structure EnrollState where
  current_camera_type : String
  ir_encodings : List (Encoding × String)
  rgb_encodings : List (Encoding × String)
  captured_encodings : List (Encoding × String)
  completed_ir_capture : Bool
  completed_rgb_capture : Bool
deriving DecidableEq

/-- The common tail of `on_pose_captured` (window.rs lines 985-997): push
the embedding into the legacy mirror, then save iff every present camera has
completed its capture. The returned Bool records whether
`save_captured_face` fires. -/
def finishCapture (has_ir has_rgb : Bool) (st : EnrollState) (e : Encoding) :
    EnrollState × Bool :=
  let st2 := { st with captured_encodings := st.captured_encodings ++ [(e, "center")] }
  ((st2), (!has_ir || st2.completed_ir_capture) && (!has_rgb || st2.completed_rgb_capture))

/-- `on_pose_captured` (window.rs lines 938-998): an IR capture pushes into
the IR bucket and, when an RGB camera is available, switches the session to
RGB capture and returns early — skipping the legacy push and the save check;
otherwise the capture falls through to `finishCapture`. -/
def on_pose_captured (has_ir has_rgb : Bool) (st : EnrollState) (e : Encoding) :
    EnrollState × Bool :=
  if st.current_camera_type = "ir" then
    let st1 := { st with
      ir_encodings := st.ir_encodings ++ [(e, "center")]
      completed_ir_capture := true }
    if has_rgb then
      ({ st1 with current_camera_type := "rgb" }, false)
    else
      finishCapture has_ir has_rgb st1 e
  else if st.current_camera_type = "rgb" then
    finishCapture has_ir has_rgb
      { st with
        rgb_encodings := st.rgb_encodings ++ [(e, "center")]
        completed_rgb_capture := true } e
  else
    finishCapture has_ir has_rgb st e

/-- The initial capture session state on an IR-first machine. -/
def enrollInit : EnrollState :=
  { current_camera_type := "ir", ir_encodings := [], rgb_encodings := [],
    captured_encodings := [], completed_ir_capture := false,
    completed_rgb_capture := false }

/-- The session of spec scenario 2 on the code: IR capture of `[1]`, then
RGB capture of `[2]`, then the save that the second capture triggers. -/
def c5SessionState : EnrollState :=
  (on_pose_captured true true (on_pose_captured true true enrollInit [(1 : ℚ)]).1
    [(2 : ℚ)]).1

def c5Template : FaceData :=
  save_captured_face "alice" 0 (fun k => k + 1) c5SessionState.ir_encodings
    c5SessionState.rgb_encodings c5SessionState.captured_encodings

/-- C5 counterexample: in an IR-then-RGB enrollment the IR embedding `[1]`
is captured (it is in the saved IR bucket, and the save fires on the RGB
capture), yet the saved legacy bucket holds only the RGB embedding `[2]` —
the claim's legacy mirror does not hold of this save. -/
theorem save_captured_face_legacy_mirror_gap :
    (on_pose_captured true true (on_pose_captured true true enrollInit [(1 : ℚ)]).1
      [(2 : ℚ)]).2 = true ∧
    c5Template.ir_encodings = [⟨[(1 : ℚ)], "center", "ir"⟩] ∧
    c5Template.encodings = [⟨[(2 : ℚ)], "center", ""⟩] ∧
    ¬ (⟨[(1 : ℚ)], "center", ""⟩ : FaceEncodingRecord) ∈ c5Template.encodings := by
  refine ⟨rfl, rfl, rfl, ?_⟩
  decide

theorem addWith_keeps (f : FaceData → Encoding → String → ℕ → FaceData)
    (clock : ℕ → ℕ) {α : Type} (g : FaceData → α)
    (hg : ∀ d e p n, g (f d e p n) = g d) :
    ∀ (l : List (Encoding × String)) (d : FaceData) (k : ℕ),
      g (addWith f clock d l k).1 = g d := by
  intro l
  induction l with
  | nil => intro d k; rfl
  | cons ep rest ih =>
    intro d k
    obtain ⟨e, p⟩ := ep
    simp only [addWith]
    rw [ih, hg]

theorem addWith_ir_bucket (clock : ℕ → ℕ) :
    ∀ (l : List (Encoding × String)) (d : FaceData) (k : ℕ),
      (addWith FaceData.add_ir_encoding clock d l k).1.ir_encodings =
        d.ir_encodings ++ l.map (fun p => ⟨p.1, p.2, "ir"⟩) := by
  intro l
  induction l with
  | nil => intro d k; simp [addWith]
  | cons ep rest ih =>
    intro d k
    obtain ⟨e, p⟩ := ep
    simp only [addWith, List.map_cons]
    rw [ih]
    simp [FaceData.add_ir_encoding]

theorem addWith_rgb_bucket (clock : ℕ → ℕ) :
    ∀ (l : List (Encoding × String)) (d : FaceData) (k : ℕ),
      (addWith FaceData.add_rgb_encoding clock d l k).1.rgb_encodings =
        d.rgb_encodings ++ l.map (fun p => ⟨p.1, p.2, "rgb"⟩) := by
  intro l
  induction l with
  | nil => intro d k; simp [addWith]
  | cons ep rest ih =>
    intro d k
    obtain ⟨e, p⟩ := ep
    simp only [addWith, List.map_cons]
    rw [ih]
    simp [FaceData.add_rgb_encoding]

theorem addWith_legacy_bucket (clock : ℕ → ℕ) :
    ∀ (l : List (Encoding × String)) (d : FaceData) (k : ℕ),
      (addWith FaceData.add_encoding clock d l k).1.encodings =
        d.encodings ++ l.map (fun p => ⟨p.1, p.2, ""⟩) := by
  intro l
  induction l with
  | nil => intro d k; simp [addWith]
  | cons ep rest ih =>
    intro d k
    obtain ⟨e, p⟩ := ep
    simp only [addWith, List.map_cons]
    rw [ih]
    simp [FaceData.add_encoding]

theorem addWith_updated (f : FaceData → Encoding → String → ℕ → FaceData)
    (clock : ℕ → ℕ) (hf : ∀ d e p n, (f d e p n).updated_at = n) :
    ∀ (l : List (Encoding × String)) (d : FaceData) (k : ℕ),
      (addWith f clock d l k).1.updated_at = d.updated_at ∨
        ∃ j, (addWith f clock d l k).1.updated_at = clock j := by
  intro l
  induction l with
  | nil => intro d k; exact Or.inl rfl
  | cons ep rest ih =>
    intro d k
    obtain ⟨e, p⟩ := ep
    simp only [addWith]
    rcases ih (f d e p (clock k)) (k + 1) with h | ⟨j, h⟩
    · rw [h, hf]
      exact Or.inr ⟨k, rfl⟩
    · exact Or.inr ⟨j, h⟩

/-- C5 (amended): the template built by the Save step satisfies
`ir_captured ⇔ ir_encodings` non-empty and `rgb_captured ⇔ rgb_encodings`
non-empty; `created_at = t0 ≤ updated_at` (the clock never precedes the
creation stamp); the three buckets are exactly the session's three lists
tagged `""` / `"ir"` / `"rgb"`; and `all_encodings` is their concatenation.
The legacy bucket mirrors the session's `captured_encodings` list — but an
IR capture taken while an RGB camera is available for fallback is never
pushed onto that list (the camera-switch early return skips the push),
whereas an IR capture with no RGB camera present (the IR-only machine of
spec scenario 1) falls through to the push of line 986 and is mirrored, and
a capture on the RGB leg always is; so the claimed "every captured embedding
appears in the legacy bucket" holds exactly of the captures that do not
trigger the IR-to-RGB switch. -/
theorem save_captured_face_invariants (username : String) (t0 : ℕ)
    (clock : ℕ → ℕ) (ir rgb legacy : List (Encoding × String))
    (hclock : ∀ k, t0 ≤ clock k) :
    ((save_captured_face username t0 clock ir rgb legacy).ir_captured = true ↔
      (save_captured_face username t0 clock ir rgb legacy).ir_encodings ≠ []) ∧
    ((save_captured_face username t0 clock ir rgb legacy).rgb_captured = true ↔
      (save_captured_face username t0 clock ir rgb legacy).rgb_encodings ≠ []) ∧
    (save_captured_face username t0 clock ir rgb legacy).created_at = t0 ∧
    (save_captured_face username t0 clock ir rgb legacy).created_at ≤
      (save_captured_face username t0 clock ir rgb legacy).updated_at ∧
    (save_captured_face username t0 clock ir rgb legacy).encodings =
      legacy.map (fun p => ⟨p.1, p.2, ""⟩) ∧
    (save_captured_face username t0 clock ir rgb legacy).ir_encodings =
      ir.map (fun p => ⟨p.1, p.2, "ir"⟩) ∧
    (save_captured_face username t0 clock ir rgb legacy).rgb_encodings =
      rgb.map (fun p => ⟨p.1, p.2, "rgb"⟩) ∧
    (save_captured_face username t0 clock ir rgb legacy).all_encodings =
      (save_captured_face username t0 clock ir rgb legacy).encodings ++
        (save_captured_face username t0 clock ir rgb legacy).ir_encodings ++
        (save_captured_face username t0 clock ir rgb legacy).rgb_encodings ∧
    (∀ (has_ir : Bool) (st : EnrollState) (e : Encoding),
      st.current_camera_type = "ir" →
      (on_pose_captured has_ir true st e).1.captured_encodings =
        st.captured_encodings) ∧
    (∀ (has_ir : Bool) (st : EnrollState) (e : Encoding),
      st.current_camera_type = "ir" →
      (on_pose_captured has_ir false st e).1.captured_encodings =
        st.captured_encodings ++ [(e, "center")]) ∧
    (∀ (has_ir has_rgb : Bool) (st : EnrollState) (e : Encoding),
      st.current_camera_type = "rgb" →
      (on_pose_captured has_ir has_rgb st e).1.captured_encodings =
        st.captured_encodings ++ [(e, "center")]) := by
  have kLegacyIr : ∀ (l : List (Encoding × String)) (d : FaceData) (k : ℕ),
      (addWith FaceData.add_encoding clock d l k).1.ir_encodings = d.ir_encodings :=
    addWith_keeps FaceData.add_encoding clock (fun d => d.ir_encodings) (fun _ _ _ _ => rfl)
  have kLegacyRgb : ∀ (l : List (Encoding × String)) (d : FaceData) (k : ℕ),
      (addWith FaceData.add_encoding clock d l k).1.rgb_encodings = d.rgb_encodings :=
    addWith_keeps FaceData.add_encoding clock (fun d => d.rgb_encodings) (fun _ _ _ _ => rfl)
  have kLegacyIrc : ∀ (l : List (Encoding × String)) (d : FaceData) (k : ℕ),
      (addWith FaceData.add_encoding clock d l k).1.ir_captured = d.ir_captured :=
    addWith_keeps FaceData.add_encoding clock (fun d => d.ir_captured) (fun _ _ _ _ => rfl)
  have kLegacyRgbc : ∀ (l : List (Encoding × String)) (d : FaceData) (k : ℕ),
      (addWith FaceData.add_encoding clock d l k).1.rgb_captured = d.rgb_captured :=
    addWith_keeps FaceData.add_encoding clock (fun d => d.rgb_captured) (fun _ _ _ _ => rfl)
  have kLegacyCr : ∀ (l : List (Encoding × String)) (d : FaceData) (k : ℕ),
      (addWith FaceData.add_encoding clock d l k).1.created_at = d.created_at :=
    addWith_keeps FaceData.add_encoding clock (fun d => d.created_at) (fun _ _ _ _ => rfl)
  have kRgbIr : ∀ (l : List (Encoding × String)) (d : FaceData) (k : ℕ),
      (addWith FaceData.add_rgb_encoding clock d l k).1.ir_encodings = d.ir_encodings :=
    addWith_keeps FaceData.add_rgb_encoding clock (fun d => d.ir_encodings) (fun _ _ _ _ => rfl)
  have kRgbIrc : ∀ (l : List (Encoding × String)) (d : FaceData) (k : ℕ),
      (addWith FaceData.add_rgb_encoding clock d l k).1.ir_captured = d.ir_captured :=
    addWith_keeps FaceData.add_rgb_encoding clock (fun d => d.ir_captured) (fun _ _ _ _ => rfl)
  have kRgbEnc : ∀ (l : List (Encoding × String)) (d : FaceData) (k : ℕ),
      (addWith FaceData.add_rgb_encoding clock d l k).1.encodings = d.encodings :=
    addWith_keeps FaceData.add_rgb_encoding clock (fun d => d.encodings) (fun _ _ _ _ => rfl)
  have kRgbCr : ∀ (l : List (Encoding × String)) (d : FaceData) (k : ℕ),
      (addWith FaceData.add_rgb_encoding clock d l k).1.created_at = d.created_at :=
    addWith_keeps FaceData.add_rgb_encoding clock (fun d => d.created_at) (fun _ _ _ _ => rfl)
  have kIrEnc : ∀ (l : List (Encoding × String)) (d : FaceData) (k : ℕ),
      (addWith FaceData.add_ir_encoding clock d l k).1.encodings = d.encodings :=
    addWith_keeps FaceData.add_ir_encoding clock (fun d => d.encodings) (fun _ _ _ _ => rfl)
  have kIrRgb : ∀ (l : List (Encoding × String)) (d : FaceData) (k : ℕ),
      (addWith FaceData.add_ir_encoding clock d l k).1.rgb_encodings = d.rgb_encodings :=
    addWith_keeps FaceData.add_ir_encoding clock (fun d => d.rgb_encodings) (fun _ _ _ _ => rfl)
  have kIrCr : ∀ (l : List (Encoding × String)) (d : FaceData) (k : ℕ),
      (addWith FaceData.add_ir_encoding clock d l k).1.created_at = d.created_at :=
    addWith_keeps FaceData.add_ir_encoding clock (fun d => d.created_at) (fun _ _ _ _ => rfl)
  have h_ir : (save_captured_face username t0 clock ir rgb legacy).ir_encodings =
      ir.map (fun p => ⟨p.1, p.2, "ir"⟩) := by
    simp only [save_captured_face]
    rw [kLegacyIr]
    dsimp only
    rw [kRgbIr]
    dsimp only
    rw [addWith_ir_bucket]
    simp [FaceData.new]
  have h_rgb : (save_captured_face username t0 clock ir rgb legacy).rgb_encodings =
      rgb.map (fun p => ⟨p.1, p.2, "rgb"⟩) := by
    simp only [save_captured_face]
    rw [kLegacyRgb]
    dsimp only
    rw [addWith_rgb_bucket]
    dsimp only
    rw [kIrRgb]
    simp [FaceData.new]
  have h_enc : (save_captured_face username t0 clock ir rgb legacy).encodings =
      legacy.map (fun p => ⟨p.1, p.2, ""⟩) := by
    simp only [save_captured_face]
    rw [addWith_legacy_bucket]
    dsimp only
    rw [kRgbEnc]
    dsimp only
    rw [kIrEnc]
    simp [FaceData.new]
  have h_irc : (save_captured_face username t0 clock ir rgb legacy).ir_captured =
      !ir.isEmpty := by
    simp only [save_captured_face]
    rw [kLegacyIrc]
    dsimp only
    rw [kRgbIrc]
  have h_rgbc : (save_captured_face username t0 clock ir rgb legacy).rgb_captured =
      !rgb.isEmpty := by
    simp only [save_captured_face]
    rw [kLegacyRgbc]
  have h_cr : (save_captured_face username t0 clock ir rgb legacy).created_at = t0 := by
    simp only [save_captured_face]
    rw [kLegacyCr]
    dsimp only
    rw [kRgbCr]
    dsimp only
    rw [kIrCr]
    rfl
  have h_upd : t0 ≤ (save_captured_face username t0 clock ir rgb legacy).updated_at := by
    simp only [save_captured_face]
    rcases addWith_updated FaceData.add_encoding clock (fun _ _ _ _ => rfl)
        legacy _ _ with h | ⟨j, h⟩
    · rw [h]
      dsimp only
      rcases addWith_updated FaceData.add_rgb_encoding clock (fun _ _ _ _ => rfl)
          rgb _ _ with h2 | ⟨j2, h2⟩
      · rw [h2]
        dsimp only
        rcases addWith_updated FaceData.add_ir_encoding clock (fun _ _ _ _ => rfl)
            ir _ _ with h3 | ⟨j3, h3⟩
        · rw [h3]
          exact le_refl t0
        · rw [h3]
          exact hclock j3
      · rw [h2]
        exact hclock j2
    · rw [h]
      exact hclock j
  refine ⟨?_, ?_, h_cr, by rw [h_cr]; exact h_upd, h_enc, h_ir, h_rgb, rfl, ?_, ?_, ?_⟩
  · rw [h_irc, h_ir]
    cases ir <;> simp
  · rw [h_rgbc, h_rgb]
    cases rgb <;> simp
  · intro has_ir st e h
    simp [on_pose_captured, h]
  · intro has_ir st e h
    simp [on_pose_captured, h, finishCapture]
  · intro has_ir has_rgb st e h
    simp [on_pose_captured, h, finishCapture]

/-- Witness instantiating C5 (amended): a one-capture IR session saved with
a constant clock. -/
theorem save_captured_face_invariants_inst :
    (save_captured_face "alice" 0 (fun _ => 0) [([(1 : ℚ)], "center")] []
      [([(1 : ℚ)], "center")]).ir_captured = true ↔
    (save_captured_face "alice" 0 (fun _ => 0) [([(1 : ℚ)], "center")] []
      [([(1 : ℚ)], "center")]).ir_encodings ≠ [] :=
  (save_captured_face_invariants "alice" 0 (fun _ => 0) [([(1 : ℚ)], "center")]
    [] [([(1 : ℚ)], "center")] (fun _ => Nat.zero_le _)).1

/-! ## Template persistence (glance/src/storage.rs, save_face_data)

The write path is modelled as the trace of filesystem operations the
function performs on its success path (serialization and directory-creation
failures return early before any write and are irrelevant to the write
mechanism). -/

inductive FileOp where
  | create_dir_all (path : String)
  | write (path : String) (content : String)
  | rename (src dst : String)
deriving DecidableEq

def isRename : FileOp → Bool
  | .rename _ _ => true
  | _ => false

/-- `save_face_data` (storage.rs lines 178-208): create the storage
directory, `fs::write` the serialized JSON directly to
`<storage_dir>/<username>.json` (an in-place truncate-and-write), then, when
the system directory is writable, `fs::write` the same bytes to
`/var/lib/glance/<username>.json`. -/
def save_face_data (storage_dir username content : String)
    (system_writable : Bool) : List FileOp :=
  [FileOp.create_dir_all storage_dir,
   FileOp.write (storage_dir ++ "/" ++ username ++ ".json") content] ++
  (if system_writable then
    [FileOp.write ("/var/lib/glance/" ++ username ++ ".json") content]
  else [])

/-- C6 (code bug): on a concrete save, the trace writes the final
destination path directly and contains no rename at all: the
temp-file-plus-rename mechanism the specification mandates is absent, so a
concurrent reader can observe a half-written document. -/
theorem save_face_data_not_atomic :
    FileOp.write "/home/user/.local/share/glance/alice.json" "{}"
      ∈ save_face_data "/home/user/.local/share/glance" "alice" "{}" true ∧
    ∀ op ∈ save_face_data "/home/user/.local/share/glance" "alice" "{}" true,
      isRename op = false := by
  decide

/-! ## Fast camera discovery (spec §4.1, fast path)

`detect_cameras_fast` is called by `authenticate_inner` (auth.rs line 201)
but is absent from the staged sources: camera.rs holds only the slow/verify
path `detect_cameras`, whose `is_capture_device` opens each device. The
fast path is therefore modelled from the spec, §4.1, with an explicit trace
of device accesses. -/

inductive SysOp where
  | read_sysfs (path : String)
  | open_device (device_id : Int)
  | read_frame (device_id : Int)
deriving DecidableEq

/-- One `/sys/class/video4linux/videoN` node: the contents of its `index`
and `name` attribute files (`none` for an absent file). -/
structure SysfsNode where
  device_id : ℕ
  indexContents : Option String
  nameContents : Option String
deriving DecidableEq

/-- Modelled from the spec: `detect_cameras_fast`'s per-node walk (spec
§4.1, fast path; the function itself is missing from src/). For each node:
read the numeric `index` file and skip the node when it parses to a nonzero
value (absence is not an error); read `name` (falling back to `"Camera N"`);
classify with `detect_camera_type`; never open a device. The second
component is the trace of accesses. -/
def fastScan : List SysfsNode → List CameraInfo × List SysOp
  | [] => ([], [])
  | n :: rest =>
    let r := fastScan rest
    if (match n.indexContents with
        | some s =>
          match s.trim.toInt? with
          | some j => j != 0
          | none => false
        | none => false) then
      (r.1,
        SysOp.read_sysfs
          ("/sys/class/video4linux/video" ++ toString n.device_id ++ "/index") :: r.2)
    else
      let camName := match n.nameContents with
        | some s => s.trim
        | none => "Camera " ++ toString n.device_id
      (⟨(n.device_id : Int), "/dev/video" ++ toString n.device_id, camName,
          detect_camera_type camName⟩ :: r.1,
        SysOp.read_sysfs
          ("/sys/class/video4linux/video" ++ toString n.device_id ++ "/index") ::
        SysOp.read_sysfs
          ("/sys/class/video4linux/video" ++ toString n.device_id ++ "/name") :: r.2)

/-- Modelled from the spec: `detect_cameras_fast` is the fast scan followed
by the §4.1 ordering sort — a pure reordering with no further device
access. -/
def detect_cameras_fast (nodes : List SysfsNode) :
    List CameraInfo × List SysOp :=
  (camSort (fastScan nodes).1, (fastScan nodes).2)

theorem fastScan_ops_read_only :
    ∀ (ns : List SysfsNode), ∀ op ∈ (fastScan ns).2,
      ∃ p, op = SysOp.read_sysfs p := by
  intro ns
  induction ns with
  | nil => simp [fastScan]
  | cons n rest ih =>
    intro op hop
    simp only [fastScan] at hop
    split at hop
    · rcases List.mem_cons.mp hop with h | h
      · exact ⟨_, h⟩
      · exact ih op h
    · rcases List.mem_cons.mp hop with h | h
      · exact ⟨_, h⟩
      · rcases List.mem_cons.mp h with h2 | h2
        · exact ⟨_, h2⟩
        · exact ih op h2

/-- C7: every filesystem access of the authenticator's camera discovery is
a sysfs read — it opens no device and reads no frame on any `/dev/video*`
node; a device open happens only after discovery, when `tryCamera` runs on
a camera the loop selected. -/
theorem detect_cameras_fast_sysfs_only (nodes : List SysfsNode) :
    ∀ op ∈ (detect_cameras_fast nodes).2,
      (∃ p, op = SysOp.read_sysfs p) ∧
      (∀ i, op ≠ SysOp.open_device i) ∧
      (∀ i, op ≠ SysOp.read_frame i) := by
  intro op hop
  obtain ⟨p, hp⟩ := fastScan_ops_read_only nodes op hop
  subst hp
  exact ⟨⟨p, rfl⟩, by intro i h; exact absurd h (by simp),
    by intro i h; exact absurd h (by simp)⟩

/-- A concrete capture node: no `index` attribute (not an error per §4.1)
and no readable name (falls back to `"Camera 0"`). -/
def nodeW : SysfsNode :=
  { device_id := 0, indexContents := none, nameContents := none }

/-- Witness instantiating C7 at a concrete node: the one `index` read of
the scan is a sysfs read, not a device open or a frame read. -/
theorem detect_cameras_fast_sysfs_only_inst :
    (∃ p, SysOp.read_sysfs "/sys/class/video4linux/video0/index" =
      SysOp.read_sysfs p) ∧
    (∀ i, SysOp.read_sysfs "/sys/class/video4linux/video0/index" ≠
      SysOp.open_device i) ∧
    (∀ i, SysOp.read_sysfs "/sys/class/video4linux/video0/index" ≠
      SysOp.read_frame i) :=
  detect_cameras_fast_sysfs_only [nodeW]
    (SysOp.read_sysfs "/sys/class/video4linux/video0/index")
    (by decide)

end Glance
